import Mathlib

/-!
# Device Downtime Analyzer — verification of the core pipeline

Shallow embedding of the core of `src/abc.py` (the event normalizer's status
assignment, the per-device interval extraction in `calculate_downtime`,
the reclassification and duration-resolution passes, `format_duration`, and
the per-device summary aggregation).

Modelling conventions:
* Timestamps and second counts are exact rationals `ℚ` (pandas timestamps /
  float seconds, without floating-point rounding).
* A pandas missing value (`NaN` / `NaT`) is `Option.none`.
* Python's floor division `//` and modulo `%` with a *positive* divisor agree
  with `Int.ediv` / `Int.emod`, which are used throughout; `int()` truncation
  toward zero is `pyInt`.
* `calculate_downtime` sorts rows by `(Device Name, Record Time)` and every
  `groupby('Device Name')` computation (`shift`, the offline filter, the
  aggregation) acts independently on each device's ordered row group, so the
  pipeline is embedded per device group: `deviceIntervals` and `summarize`
  are the functions that `calculate_downtime` applies to one device's
  time-ordered event list.
-/

set_option maxRecDepth 2000

namespace Downtime

/-- The status assigned by `process_csv` lines 150–153. -/
inductive Status
  | online
  | offline
  | unknown
deriving DecidableEq, Repr

/-- One normalized row of the device's group: `Record Time` (seconds, exact)
and the `status` column. -/
structure Event where
  time : ℚ
  status : Status
deriving DecidableEq, Repr

/-- The `Downtime_Status` column (internal three-way classification,
lines 194–202 of `src/abc.py`). -/
inductive DStatus
  | Completed
  | Ongoing
  | Intermediate
deriving DecidableEq, Repr

/-- One row of `df_downtime`: `Offline_Time`, `Online_Time`,
`Downtime_Seconds`, `Downtime_Status` (lines 204–206). -/
structure Interval where
  offlineTime : ℚ
  onlineTime : Option ℚ
  downtimeSeconds : Option ℚ
  downtimeStatus : DStatus
deriving DecidableEq, Repr

/-! ## Event normalizer (`process_csv`, lines 148–154) -/

/-- `leadMatch needle hay`: `needle` occurs at the very start of `hay`. -/
def leadMatch : List Char → List Char → Bool
  | [], _ => true
  | _ :: _, [] => false
  | a :: as, b :: bs => a == b && leadMatch as bs

/-- `hasSubstring needle hay`: `needle` occurs contiguously somewhere in
`hay`. -/
def hasSubstring (needle : List Char) : List Char → Bool
  | [] => leadMatch needle []
  | h :: t => leadMatch needle (h :: t) || hasSubstring needle t

/-- `pandas.Series.str.contains(needle, case=False)` on a single cell:
case-insensitive substring test. -/
def containsCI (hay needle : String) : Bool :=
  hasSubstring (needle.toList.map Char.toLower) (hay.toList.map Char.toLower)

/-- Lines 148: only rows whose `Type` contains `"encoding"`
(case-insensitively) are kept. -/
def isEncodingRow (label : String) : Bool :=
  containsCI label "encoding"

/-- Lines 151–153: the status column starts as `'unknown'`, rows whose
`Type` contains `'online'` are set to `'online'`, then rows whose `Type`
contains `'offline'` are set to `'offline'` (overwriting the previous
assignment). -/
def statusOf (label : String) : Status :=
  let s0 := Status.unknown
  let s1 := if containsCI label "online" then Status.online else s0
  let s2 := if containsCI label "offline" then Status.offline else s1
  s2

/-- The normalizer applied to one raw record's type label: `none` when the
record is dropped by the encoding filter, otherwise its status. -/
def normalizeType (label : String) : Option Status :=
  if isEncodingRow label then some (statusOf label) else none

/-! ## `format_duration` (lines 111–122) -/

/-- Python's `f"{n:02d}"` for the (here always non-negative) field values. -/
def pad2 (n : Int) : String :=
  let s := toString n
  if s.length < 2 then "0" ++ s else s

/-- Floor of a rational as an integer (`q.den` is positive, so Euclidean
division of the numerator is the floor). -/
def ratFloor (q : ℚ) : Int :=
  Int.ediv q.num q.den

/-- Python's `int()` on a (rational-valued) number: truncation toward zero. -/
def pyInt (q : ℚ) : Int :=
  if 0 ≤ q then ratFloor q else - ratFloor (-q)

/-- `format_duration` (lines 111–122): empty string for a missing (`NaN`) or
exactly-zero input, otherwise truncate to `int` and format as
`"{days}d {HH:MM:SS}"` when `days > 0`, else `"HH:MM:SS"`. -/
def formatDuration : Option ℚ → String
  | none => ""
  | some q =>
    if q = 0 then ""
    else
      let s := pyInt q
      let days := Int.ediv s 86400
      let hours := Int.ediv (Int.emod s 86400) 3600
      let minutes := Int.ediv (Int.emod s 3600) 60
      let secs := Int.emod s 60
      if 0 < days then
        toString days ++ "d " ++ pad2 hours ++ ":" ++ pad2 minutes ++ ":" ++ pad2 secs
      else
        pad2 hours ++ ":" ++ pad2 minutes ++ ":" ++ pad2 secs

/-- The `HH:MM:SS` part of the format applied to an already-truncated number
of seconds (used to state what the format looks like). -/
def hmsString (s : Int) : String :=
  pad2 (Int.ediv (Int.emod s 86400) 3600) ++ ":" ++
  pad2 (Int.ediv (Int.emod s 3600) 60) ++ ":" ++
  pad2 (Int.emod s 60)

/-- The formatting core on an integer number of seconds (no emptiness test):
`"{days}d {HH:MM:SS}"` when at least a day, else `"HH:MM:SS"`. -/
def formatSeconds (s : Int) : String :=
  if 0 < Int.ediv s 86400 then
    toString (Int.ediv s 86400) ++ "d " ++ hmsString s
  else hmsString s

/-! ## Interval extraction (`calculate_downtime`, lines 180–207)

`df` is sorted by `(Device Name, Record Time)` and the three `groupby`
`shift`s compute, inside one device's row group, the next row's status, the
next row's time and the previous row's status.  `shiftUp` is `shift(-1)` and
`shiftDown` is `shift(1)` on one group's column. -/

/-- `Series.shift(-1)` on one group: each position receives the next row's
value, the last position becomes missing. -/
def shiftUp {α : Type} (xs : List α) : List (Option α) :=
  match xs with
  | [] => []
  | _ :: t => t.map some ++ [none]

/-- `Series.shift(1)` on one group: each position receives the previous
row's value, the first position becomes missing. -/
def shiftDown {α : Type} (xs : List α) : List (Option α) :=
  match xs with
  | [] => []
  | _ :: _ => none :: (xs.dropLast.map some)

/-- Positionwise zip of four columns (all the same length here). -/
def zip4 {α β γ δ : Type} : List α → List β → List γ → List δ → List (α × β × γ × δ)
  | a :: as, b :: bs, c :: cs, d :: ds => (a, b, c, d) :: zip4 as bs cs ds
  | _, _, _, _ => []

/-- Lines 182–184: each row of the device group annotated with
`next_status`, `next_time`, `prev_status`. -/
def withShifts (evs : List Event) : List (Event × Option Status × Option ℚ × Option Status) :=
  zip4 evs (shiftUp (evs.map Event.status)) (shiftUp (evs.map Event.time))
    (shiftDown (evs.map Event.status))

/-- Lines 188–206 applied to one (offline) annotated row:
`Downtime_Seconds = next_time − Record Time` when `next_status == 'online'`
else missing; `Downtime_Status` by the `np.where` chain; `Online_Time` is
the renamed `next_time` column. -/
def mkInterval (x : Event × Option Status × Option ℚ × Option Status) : Interval :=
  { offlineTime := x.1.time
  , onlineTime := x.2.2.1
  , downtimeSeconds :=
      if x.2.1 = some Status.online then x.2.2.1.map (fun t => t - x.1.time) else none
  , downtimeStatus :=
      if x.2.1 = some Status.online then DStatus.Completed
      else if x.2.2.2 = some Status.online then DStatus.Ongoing
      else DStatus.Intermediate }

/-- Lines 180–207: the raw `df_downtime` rows of one device group — the
annotated rows filtered to `status == 'offline'`, each becoming one
interval row. -/
def rawIntervals (evs : List Event) : List Interval :=
  (withShifts evs).filterMap fun x =>
    if x.1.status = Status.offline then some (mkInterval x) else none

/-- The extractor as a direct recursion over the device's ordered event
list, carrying the previous event's status.  Modelled from the claim (C1 as
amended): one interval per offline event, `offlineTime` its timestamp,
`onlineTime` the next event's timestamp whenever a next event exists
(whatever its status), `Completed` when the next event is online, else
`Ongoing` when the previous event was online, else `Intermediate`. -/
def extractIntervals : Option Status → List Event → List Interval
  | _, [] => []
  | prev, e :: rest =>
    let tail := extractIntervals (some e.status) rest
    if e.status = Status.offline then
      { offlineTime := e.time
      , onlineTime := rest.head?.map Event.time
      , downtimeSeconds :=
          if rest.head?.map Event.status = some Status.online then
            rest.head?.map (fun n => n.time - e.time)
          else none
      , downtimeStatus :=
          if rest.head?.map Event.status = some Status.online then DStatus.Completed
          else if prev = some Status.online then DStatus.Ongoing
          else DStatus.Intermediate } :: tail
    else tail

/-! ## Reclassification and duration resolution (lines 209–225) -/

/-- Lines 210–211: rows with a present `Online_Time` and status `Ongoing`
are corrected to `Completed`; every other row is untouched. -/
def reclassify (iv : Interval) : Interval :=
  if iv.onlineTime.isSome = true ∧ iv.downtimeStatus = DStatus.Ongoing then
    { iv with downtimeStatus := DStatus.Completed }
  else iv

/-- `recalculate_downtime` (lines 216–222), with `now` the
`pd.Timestamp.now()` sampled at line 214. -/
def recalculateDowntime (now : ℚ) (iv : Interval) : Option ℚ :=
  if iv.downtimeStatus = DStatus.Completed then iv.downtimeSeconds
  else
    match iv.onlineTime with
    | some t => some (t - iv.offlineTime)
    | none => some (now - iv.offlineTime)

/-- Line 224: the row with its `Downtime_Seconds` replaced by the
recalculated value. -/
def resolveInterval (now : ℚ) (iv : Interval) : Interval :=
  { iv with downtimeSeconds := recalculateDowntime now iv }

/-- Lines 180–224 for one device group: extraction, then reclassification,
then duration resolution (all row-wise). -/
def deviceIntervals (evs : List Event) (now : ℚ) : List Interval :=
  (rawIntervals evs).map fun iv => resolveInterval now (reclassify iv)

/-- Line 272–273: the outward display label folds `Intermediate` into
`Completed`. -/
def displayStatus (d : DStatus) : String :=
  if d = DStatus.Ongoing then "🔴 Ongoing" else "✔️ Completed"

/-! ## Summary aggregation (lines 228–265) -/

/-- pandas `GroupBy` `'last'` aggregation: the last non-null entry. -/
def lastSome {α : Type} (l : List (Option α)) : Option α :=
  (l.filterMap id).getLast?

/-- `numpy.maximum` on two (non-null) numbers. -/
def npMaximum (a b : ℚ) : ℚ :=
  if a ≤ b then b else a

/-- `numpy.round` to zero decimals: round half to even. -/
def npRound (q : ℚ) : Int :=
  let f := ratFloor q
  let r := q - (f : ℚ)
  if r < 1 / 2 then f
  else if 1 / 2 < r then f + 1
  else if f % 2 = 0 then f else f + 1

/-- One row of `summary` (lines 241–265), with the numeric seconds fields
kept alongside the derived status label. -/
structure SummaryRow where
  lastOfflineTime : ℚ
  lastOnlineTime : Option ℚ
  totalDowntimeEvents : Nat
  totalDowntimeSeconds : ℚ
  ongoingCount : Nat
  currentDowntimeSeconds : Option ℚ
  currentStatus : String
deriving DecidableEq, Repr

/-- Lines 228–265 for one device group of `df_downtime` (the group is
non-empty whenever the device appears at all, hence the `Option`):
the `agg` dictionary (`'last'` of the two time columns, `['count','sum']`
of `Downtime_Seconds` — pandas `count` counts the *non-null* entries and
`sum` skips nulls — and the Ongoing counter), then `Total_Downtime_Seconds`
rounded, `Current_Downtime_Seconds` for devices with a positive ongoing
count (using the second `pd.Timestamp.now()` sample `now2`, line 228), the
`np.maximum` consistency repair of lines 253–258, and the status label of
line 265. -/
def summarize (now2 : ℚ) (ivs : List Interval) : Option SummaryRow :=
  match ivs.getLast? with
  | none => none
  | some lastIv =>
    let durs := ivs.filterMap Interval.downtimeSeconds
    let ongoing := (ivs.filter fun iv => iv.downtimeStatus = DStatus.Ongoing).length
    let total0 : ℚ := (npRound durs.sum : Int)
    let currentVal : ℚ := (npRound (now2 - lastIv.offlineTime) : Int)
    some
      { lastOfflineTime := lastIv.offlineTime
      , lastOnlineTime := lastSome (ivs.map Interval.onlineTime)
      , totalDowntimeEvents := durs.length
      , totalDowntimeSeconds := if 0 < ongoing then npMaximum total0 currentVal else total0
      , ongoingCount := ongoing
      , currentDowntimeSeconds := if 0 < ongoing then some currentVal else none
      , currentStatus := if 0 < ongoing then "🔴 Offline" else "✔️ Online" }

/-! ## The whole `calculate_downtime` (lines 174–279) -/

/-- One row of the sorted input `df`: device name and normalized event. -/
def Row : Type := String × Event

/-- `groupby('Device Name')` on the device-sorted rows: consecutive runs of
equal device names become one group, in order. -/
def groupByDevice : List Row → List (String × List Event)
  | [] => []
  | (d, e) :: rest =>
    match groupByDevice rest with
    | (d2, es) :: gs =>
      if d = d2 then (d, e :: es) :: gs else (d, [e]) :: (d2, es) :: gs
    | [] => [(d, [e])]

/-- `calculate_downtime` (lines 174–279): a missing (`None`) or empty input
frame yields two empty tables (lines 175–176); otherwise the per-device
pipeline runs on every device group (the `try` body; every operation of the
embedded body is total, matching the defensive `except` that converts any
failure into two empty tables).  Output: the summary rows and the resolved
interval rows, tagged with their device. -/
def calculateDowntime (input : Option (List Row)) (now now2 : ℚ) :
    List (String × SummaryRow) × List (String × Interval) :=
  match input with
  | none => ([], [])
  | some rows =>
    if rows.isEmpty then ([], [])
    else
      let groups := groupByDevice rows
      ((groups.filterMap fun g => (summarize now2 (deviceIntervals g.2 now)).map fun r => (g.1, r)),
       groups.flatMap fun g => (deviceIntervals g.2 now).map fun iv => (g.1, iv))

/-! ## Concrete fixtures used by counterexamples and witnesses -/

/-- Device sequence online@0, offline@10, offline@20. -/
def ex1 : List Event :=
  [⟨0, Status.online⟩, ⟨10, Status.offline⟩, ⟨20, Status.offline⟩]

/-- Device sequence online@0, offline@30 (an ongoing tail). -/
def ex2 : List Event :=
  [⟨0, Status.online⟩, ⟨30, Status.offline⟩]

/-- Device sequence offline@10, online@10 (a zero-length completed outage). -/
def exZ : List Event :=
  [⟨10, Status.offline⟩, ⟨10, Status.online⟩]

/-- A completed interval with its duration set by the extractor. -/
def iv0 : Interval :=
  ⟨0, some 5, some 5, DStatus.Completed⟩

/-- A provisional Ongoing interval with a present online time. -/
def c3iv : Interval :=
  ⟨0, some 5, none, DStatus.Ongoing⟩

/-- A completed interval lasting 90000 s (more than one day). -/
def iv8 : Interval :=
  ⟨0, some 90000, some 90000, DStatus.Completed⟩

/-- The resolved interval of `ex2` at analysis instant 100. -/
def ivX : Interval :=
  ⟨30, none, some 70, DStatus.Ongoing⟩

/-- The summary row of `ex2` with resolution instant 100 and aggregation
instant 105. -/
def c4row : SummaryRow :=
  ⟨30, none, 1, 75, 1, some 75, "🔴 Offline"⟩

/-- The summary row of `ex1` with both instants 100. -/
def c5row : SummaryRow :=
  ⟨20, some 20, 1, 80, 0, none, "✔️ Online"⟩

/-- The `prev_status` column of one device group, written as a recursion
that carries the status of the event before the current suffix (`none` at
the start of the group). -/
def downShifted : Option Status → List Event → List (Option Status)
  | _, [] => []
  | p, e :: rest => p :: downShifted (some e.status) rest

/-! ## Helper lemmas -/

lemma shiftUp_cons {α : Type} (a : α) (t : List α) :
    shiftUp (a :: t) = t.head? :: shiftUp t := by
  cases t <;> simp [shiftUp]

lemma dropLast_map_status (rest : List Event) :
    ∀ e : Event, ((e :: rest).map Event.status).dropLast.map some
      = downShifted (some e.status) rest := by
  induction rest with
  | nil => intro e; rfl
  | cons b bs ih =>
    intro e
    simp only [List.map_cons, List.dropLast_cons₂, downShifted]
    simpa using ih b

lemma shiftDown_status_eq (evs : List Event) :
    shiftDown (evs.map Event.status) = downShifted none evs := by
  cases evs with
  | nil => rfl
  | cons e rest =>
    simp only [shiftDown, downShifted, List.map_cons]
    exact congrArg (none :: ·) (by simpa using dropLast_map_status rest e)

lemma raw_eq_extract_aux (evs : List Event) : ∀ p : Option Status,
    ((zip4 evs (shiftUp (evs.map Event.status)) (shiftUp (evs.map Event.time))
        (downShifted p evs)).filterMap fun x =>
      if x.1.status = Status.offline then some (mkInterval x) else none)
    = extractIntervals p evs := by
  induction evs with
  | nil => intro p; rfl
  | cons e rest ih =>
    intro p
    simp only [List.map_cons, shiftUp_cons, List.head?_map, downShifted, zip4,
      List.filterMap_cons, extractIntervals]
    by_cases h : e.status = Status.offline
    · rw [if_pos h, if_pos h]
      refine congrArg₂ List.cons ?_ (ih (some e.status))
      cases hh : rest.head? <;> simp [mkInterval, hh]
    · rw [if_neg h, if_neg h]
      exact ih (some e.status)

/-- `rawIntervals` (the pandas `shift`/filter formulation) equals the
recursive neighbor-rule extractor. -/
lemma raw_eq_extract (evs : List Event) :
    rawIntervals evs = extractIntervals none evs := by
  unfold rawIntervals withShifts
  rw [shiftDown_status_eq]
  exact raw_eq_extract_aux evs none

/-- `reclassify` touches only the status field. -/
lemma reclassify_fields (iv : Interval) :
    (reclassify iv).offlineTime = iv.offlineTime ∧
    (reclassify iv).onlineTime = iv.onlineTime ∧
    (reclassify iv).downtimeSeconds = iv.downtimeSeconds := by
  unfold reclassify
  split_ifs <;> exact ⟨rfl, rfl, rfl⟩

/-- Every `Completed` row of the extractor's output has a present online
time and its duration already set to `online − offline`. -/
lemma extract_completed (evs : List Event) : ∀ (p : Option Status) (iv : Interval),
    iv ∈ extractIntervals p evs → iv.downtimeStatus = DStatus.Completed →
    ∃ t, iv.onlineTime = some t ∧ iv.downtimeSeconds = some (t - iv.offlineTime) := by
  induction evs with
  | nil => intro p iv h; simp [extractIntervals] at h
  | cons e rest ih =>
    intro p iv hmem hc
    simp only [extractIntervals] at hmem
    by_cases h : e.status = Status.offline
    · rw [if_pos h] at hmem
      rcases List.mem_cons.mp hmem with heq | htail
      · by_cases hn : rest.head?.map Event.status = some Status.online
        · cases hh : rest.head? with
          | none => rw [hh] at hn; simp at hn
          | some n =>
            rw [hh] at hn
            simp at hn
            exact ⟨n.time, by simp [heq, hh], by simp [heq, hh, hn]⟩
        · rw [heq] at hc
          simp only [if_neg hn] at hc
          split_ifs at hc
      · exact ih (some e.status) iv htail hc
    · rw [if_neg h] at hmem
      exact ih (some e.status) iv hmem hc

/-- On a time-sorted group whose events all lie at or before `now`, every
extracted row has `offline ≤ now`, `offline ≤ online` when online is
present, and a non-negative duration when the duration is present. -/
lemma extract_bounds (now : ℚ) (evs : List Event) : ∀ p : Option Status,
    List.Chain' (fun a b : Event => a.time ≤ b.time) evs →
    (∀ e ∈ evs, e.time ≤ now) →
    ∀ iv ∈ extractIntervals p evs,
      iv.offlineTime ≤ now ∧
      (∀ t, iv.onlineTime = some t → iv.offlineTime ≤ t) ∧
      (∀ d, iv.downtimeSeconds = some d → 0 ≤ d) := by
  induction evs with
  | nil => intro p _ _ iv h; simp [extractIntervals] at h
  | cons e rest ih =>
    intro p hch hb iv hmem
    have hch2 : List.Chain' (fun a b : Event => a.time ≤ b.time) rest := hch.tail
    have hb2 : ∀ x ∈ rest, x.time ≤ now := fun x hx => hb x (List.mem_cons_of_mem _ hx)
    simp only [extractIntervals] at hmem
    by_cases h : e.status = Status.offline
    · rw [if_pos h] at hmem
      rcases List.mem_cons.mp hmem with heq | htail
      · have hfirst : ∀ n : Event, rest.head? = some n → e.time ≤ n.time := by
          intro n hn
          exact (List.chain'_cons'.mp hch).1 n hn
        refine ⟨?_, ?_, ?_⟩
        · rw [heq]; exact hb e (List.mem_cons_self e rest)
        · intro t ht
          rw [heq] at ht ⊢
          cases hh : rest.head? with
          | none => rw [hh] at ht; simp at ht
          | some n =>
            rw [hh] at ht
            simp at ht
            subst ht
            simpa using hfirst n hh
        · intro d hd
          rw [heq] at hd
          cases hh : rest.head? with
          | none => rw [hh] at hd; simp at hd
          | some n =>
            rw [hh] at hd
            by_cases hn : n.status = Status.online
            · simp [hn] at hd
              have := hfirst n hh
              subst hd
              linarith
            · simp [hn] at hd
      · exact ih (some e.status) hch2 hb2 iv htail
    · rw [if_neg h] at hmem
      exact ih (some e.status) hch2 hb2 iv hmem

lemma length_filterMap_isSome {α β : Type} (f : α → Option β) (l : List α) :
    (l.filterMap f).length = (l.filter fun a => (f a).isSome).length := by
  induction l with
  | nil => rfl
  | cons a t ih => cases h : f a <;> simp [List.filterMap_cons, List.filter_cons, h, ih]

lemma stringAppendAssoc (a b c : String) : a ++ b ++ c = a ++ (b ++ c) := by
  cases a with | mk la =>
  cases b with | mk lb =>
  cases c with | mk lc =>
  show String.mk (la ++ lb ++ lc) = String.mk (la ++ (lb ++ lc))
  rw [List.append_assoc]

lemma ediv_day_pos_iff (s : Int) : 0 < Int.ediv s 86400 ↔ 86400 ≤ s := by
  show 0 < s / 86400 ↔ 86400 ≤ s
  omega

lemma le_npMaximum_right (a b : ℚ) : b ≤ npMaximum a b := by
  unfold npMaximum
  split_ifs with h
  · exact le_refl b
  · exact le_of_not_le h

/-! ## Claims -/

/-- C1, counterexample.  The claim says `online_at` is absent when the next
event's status is not online; but for the sequence online@0, offline@10,
offline@20 the interval of the offline event at 10 carries
`Online_Time = 20` even though its next event (the one at 20) is itself
offline — `next_time = shift(-1)` of `Record Time` is taken regardless of
`next_status`. -/
theorem c1_counterexample :
    (rawIntervals ex1).map Interval.onlineTime = [some 20, none] ∧
    ex1[2]? = some ⟨20, Status.offline⟩ := by
  exact ⟨by with_unfolding_all decide, by decide⟩

/-- C1, amended: the extractor emits exactly one raw interval per offline
event, with `offline_at` the event's timestamp, `online_at` the *next
event's timestamp whenever a next event exists (whatever its status)* and
absent only for the last event of the group, and the provisional status
`Completed` if the next event is online, else `Ongoing` if the previous
event is online, else `Intermediate` (the duration being set exactly in the
`Completed`-by-next-online case).  Formally: the pandas shift/filter
pipeline `rawIntervals` coincides with the recursive neighbor rule
`extractIntervals`. -/
theorem c1_one_interval_per_offline (evs : List Event) :
    rawIntervals evs = extractIntervals none evs :=
  raw_eq_extract evs

/-- C2, counterexample.  On online@0, offline@10, offline@20 (analysis
instant 100) the first interval is reclassified Ongoing → Completed with
`online_at = 20`, `offline_at = 10`, but its resolved duration is missing
(`recalculate_downtime` returns the untouched `Downtime_Seconds`, `NaN`,
for every `Completed` row) instead of the claimed `online_at − offline_at`. -/
theorem c2_counterexample :
    ¬ (∀ iv ∈ deviceIntervals ex1 100, iv.downtimeStatus = DStatus.Completed →
        iv.downtimeSeconds = iv.onlineTime.map (fun t => t - iv.offlineTime)) := by
  with_unfolding_all decide

/-- C2, amended: for every interval whose status after reclassification is
`Completed`, the resolver returns the extractor's `Downtime_Seconds`
*unchanged*; that value is `online_at − offline_at` for intervals the
extractor already marked `Completed` (next event online), while an interval
reclassified from `Ongoing` keeps its unset duration instead of having it
recomputed. -/
theorem c2_completed_keeps_extractor_duration :
    (∀ (now : ℚ) (iv : Interval),
      (reclassify iv).downtimeStatus = DStatus.Completed →
      (resolveInterval now (reclassify iv)).downtimeSeconds = iv.downtimeSeconds) ∧
    (∀ (evs : List Event) (iv : Interval), iv ∈ rawIntervals evs →
      iv.downtimeStatus = DStatus.Completed →
      ∃ t, iv.onlineTime = some t ∧ iv.downtimeSeconds = some (t - iv.offlineTime)) := by
  constructor
  · intro now iv h
    have hf := (reclassify_fields iv).2.2
    simp only [resolveInterval, recalculateDowntime, if_pos h]
    exact hf
  · intro evs iv hmem hc
    rw [raw_eq_extract] at hmem
    exact extract_completed evs none iv hmem hc

/-- C2, witness: a `Completed` interval whose duration was set by the
extractor keeps it through resolution. -/
theorem c2_witness :
    (resolveInterval 0 (reclassify iv0)).downtimeSeconds = iv0.downtimeSeconds :=
  c2_completed_keeps_extractor_duration.1 0 iv0 (by decide)

/-- C3: a raw interval with a present `online_at` and provisional status
`Ongoing` is corrected to `Completed` (only the status changes); every
interval not matching both conditions is returned untouched. -/
theorem c3_reclassify_rule (iv : Interval) :
    (iv.onlineTime.isSome = true ∧ iv.downtimeStatus = DStatus.Ongoing →
      reclassify iv = { iv with downtimeStatus := DStatus.Completed }) ∧
    (¬ (iv.onlineTime.isSome = true ∧ iv.downtimeStatus = DStatus.Ongoing) →
      reclassify iv = iv) := by
  constructor
  · intro h; rw [reclassify, if_pos h]
  · intro h; rw [reclassify, if_neg h]

/-- C3, witness. -/
theorem c3_witness :
    reclassify c3iv = { c3iv with downtimeStatus := DStatus.Completed } :=
  (c3_reclassify_rule c3iv).1 (by decide)

/-- C4: for every device row of the summary with a positive ongoing count,
the aggregated total downtime is at least the current downtime, whatever
the interval durations (resolved against the first `now` sample) and the
aggregation instant `now2` are — the `np.maximum` repair of lines 253–258
enforces it. -/
theorem c4_total_ge_current (now2 : ℚ) (ivs : List Interval) (row : SummaryRow)
    (c : ℚ) (hrow : summarize now2 ivs = some row) (hong : 0 < row.ongoingCount)
    (hcur : row.currentDowntimeSeconds = some c) :
    c ≤ row.totalDowntimeSeconds := by
  cases hl : ivs.getLast? with
  | none => rw [summarize, hl] at hrow; exact absurd hrow (by simp)
  | some lastIv =>
    rw [summarize, hl] at hrow
    rw [Option.some.injEq] at hrow
    subst hrow
    by_cases h : 0 < (ivs.filter fun iv => iv.downtimeStatus = DStatus.Ongoing).length
    · simp only [if_pos h, Option.some.injEq] at hcur
      show c ≤ if 0 < (ivs.filter fun iv => iv.downtimeStatus = DStatus.Ongoing).length
        then npMaximum ((npRound (ivs.filterMap Interval.downtimeSeconds).sum : Int) : ℚ)
          ((npRound (now2 - lastIv.offlineTime) : Int) : ℚ)
        else ((npRound (ivs.filterMap Interval.downtimeSeconds).sum : Int) : ℚ)
      rw [if_pos h, ← hcur]
      exact le_npMaximum_right _ _
    · simp only [if_neg h] at hcur
      exact absurd hcur (by simp)

/-- C4, witness: device sequence online@0, offline@30, duration resolution
at instant 100 and aggregation at instant 105. -/
theorem c4_witness : (75 : ℚ) ≤ c4row.totalDowntimeSeconds :=
  c4_total_ge_current 105 (deviceIntervals ex2 100) c4row 75
    (by with_unfolding_all rfl) (by decide) (by decide)

/-- C5, counterexample.  On online@0, offline@10, offline@20 the interval
table of the device has two rows, but `Total_DownTime_Events` is 1: pandas
`count` counts only non-null `Downtime_Seconds`, and the row reclassified
Ongoing → Completed kept a null duration. -/
theorem c5_counterexample :
    (summarize 100 (deviceIntervals ex1 100)).map SummaryRow.totalDowntimeEvents
      = some 1 ∧
    (deviceIntervals ex1 100).length = 2 := by
  exact ⟨by with_unfolding_all rfl, by with_unfolding_all rfl⟩

/-- C5, amended: `total_events` equals the number of the device's intervals
whose resolved `duration_seconds` is present (non-null) — intervals whose
duration stayed unset are not counted. -/
theorem c5_total_events_counts_nonnull (now2 : ℚ) (ivs : List Interval)
    (row : SummaryRow) (hrow : summarize now2 ivs = some row) :
    row.totalDowntimeEvents
      = (ivs.filter fun iv => iv.downtimeSeconds.isSome).length := by
  cases hl : ivs.getLast? with
  | none => rw [summarize, hl] at hrow; exact absurd hrow (by simp)
  | some lastIv =>
    rw [summarize, hl] at hrow
    simp only [Option.some.injEq] at hrow
    subst hrow
    exact length_filterMap_isSome Interval.downtimeSeconds ivs

/-- C5, witness. -/
theorem c5_witness :
    c5row.totalDowntimeEvents
      = ((deviceIntervals ex1 100).filter fun iv => iv.downtimeSeconds.isSome).length :=
  c5_total_events_counts_nonnull 100 (deviceIntervals ex1 100) c5row
    (by with_unfolding_all rfl)

/-- C6, counterexample.  The claim asserts every resolved interval has a
non-negative present duration for *every* parseable input.  On online@0,
offline@10, offline@20 with analysis instant 15 (earlier than the last
event) the first resolved interval has no duration at all and the second
has duration −5 < 0 (`analysis_instant − offline_at` with a future
`offline_at`). -/
theorem c6_counterexample :
    (deviceIntervals ex1 15).map Interval.downtimeSeconds = [none, some (-5)] ∧
    (-5 : ℚ) < 0 := by
  exact ⟨by with_unfolding_all decide, by with_unfolding_all decide⟩

/-- C6, amended: when the device's event group is sorted by timestamp (the
sequencer guarantees this) and the analysis instant is not earlier than any
event timestamp, every resolved interval whose duration is present has a
non-negative duration — including open-ended intervals, resolved to
`analysis_instant − offline_at`. -/
theorem c6_durations_nonneg (evs : List Event) (now : ℚ)
    (hsorted : List.Chain' (fun a b : Event => a.time ≤ b.time) evs)
    (hnow : ∀ e ∈ evs, e.time ≤ now) :
    ∀ iv ∈ deviceIntervals evs now, ∀ d, iv.downtimeSeconds = some d → 0 ≤ d := by
  intro iv hmem d hd
  simp only [deviceIntervals, List.mem_map] at hmem
  obtain ⟨r, hr, rfl⟩ := hmem
  rw [raw_eq_extract] at hr
  obtain ⟨h1, h2, h3⟩ := extract_bounds now evs none hsorted hnow r hr
  obtain ⟨f1, f2, f3⟩ := reclassify_fields r
  simp only [resolveInterval] at hd
  rw [recalculateDowntime] at hd
  split_ifs at hd with hcs
  · exact h3 d (f3 ▸ hd)
  · cases ho : (reclassify r).onlineTime with
    | some t =>
      rw [ho] at hd
      rw [Option.some.injEq] at hd
      have hle : r.offlineTime ≤ t := h2 t (f2 ▸ ho)
      rw [← hd, f1]
      linarith
    | none =>
      rw [ho] at hd
      rw [Option.some.injEq] at hd
      rw [← hd, f1]
      linarith

/-- C6, witness: the ongoing interval of online@0, offline@30 resolved at
instant 100 has duration 70 ≥ 0. -/
theorem c6_witness : (0 : ℚ) ≤ 70 :=
  c6_durations_nonneg ex2 100
    (by norm_num [ex2, List.chain'_cons, List.chain'_singleton])
    (by norm_num [ex2]) ivX (by with_unfolding_all decide) 70
    (by with_unfolding_all decide)

/-- C7: a type label that case-insensitively contains both `"online"` and
`"offline"` is assigned status offline — the offline assignment of line 153
runs after (and overwrites) the online assignment of line 152. -/
theorem c7_both_labels_offline (label : String)
    (_hon : containsCI label "online" = true)
    (hoff : containsCI label "offline" = true) :
    statusOf label = Status.offline := by
  simp only [statusOf, hoff, if_true]

/-- C7, witness. -/
theorem c7_witness : statusOf "Encoding_OnLine_OffLine" = Status.offline :=
  c7_both_labels_offline "Encoding_OnLine_OffLine" (by decide) (by decide)

/-- C8, counterexample.  The zero-length completed outage offline@10,
online@10 is a resolved interval with duration 0, and its
`Downtime_Duration` string is `""` — not the `"00:00:00"` the claim's
`"HH:MM:SS"` shape requires (`format_duration` returns the empty string for
0 input). -/
theorem c8_counterexample :
    (deviceIntervals exZ 100).map (fun iv => formatDuration iv.downtimeSeconds)
      = [""] ∧
    (deviceIntervals exZ 100).map Interval.downtimeSeconds = [some 0] := by
  exact ⟨by with_unfolding_all decide, by with_unfolding_all decide⟩

/-- C8, amended: the human-readable duration string of a resolved interval
is `"{days}d HH:MM:SS"` when the (truncated) duration is at least one day
(86400 s), `"HH:MM:SS"` when it is below one day, *except* that a missing
or exactly-zero duration renders as the empty string. -/
theorem c8_duration_format (iv : Interval) :
    (iv.downtimeSeconds = none → formatDuration iv.downtimeSeconds = "") ∧
    (iv.downtimeSeconds = some 0 → formatDuration iv.downtimeSeconds = "") ∧
    (∀ q : ℚ, iv.downtimeSeconds = some q → q ≠ 0 → 86400 ≤ pyInt q →
      formatDuration iv.downtimeSeconds
        = toString (Int.ediv (pyInt q) 86400) ++ "d " ++ hmsString (pyInt q)) ∧
    (∀ q : ℚ, iv.downtimeSeconds = some q → q ≠ 0 → pyInt q < 86400 →
      formatDuration iv.downtimeSeconds = hmsString (pyInt q)) := by
  refine ⟨fun h => by rw [h]; rfl, fun h => by rw [h]; simp [formatDuration], ?_, ?_⟩
  · intro q hq hne hday
    rw [hq]
    have hpos : 0 < Int.ediv (pyInt q) 86400 := (ediv_day_pos_iff (pyInt q)).mpr hday
    simp only [formatDuration, if_neg hne, if_pos hpos, hmsString]
    simp [stringAppendAssoc]
  · intro q hq hne hday
    rw [hq]
    have hneg : ¬ 0 < Int.ediv (pyInt q) 86400 := by
      rw [ediv_day_pos_iff]; omega
    simp only [formatDuration, if_neg hne, if_neg hneg, hmsString]

/-- C8, witness: a 25-hour completed interval formats as one day plus
`HH:MM:SS`. -/
theorem c8_witness :
    formatDuration iv8.downtimeSeconds
      = toString (Int.ediv (pyInt (90000 : ℚ)) 86400) ++ "d "
        ++ hmsString (pyInt (90000 : ℚ)) :=
  (c8_duration_format iv8).2.2.1 90000 rfl (by with_unfolding_all decide)
    (by with_unfolding_all decide)

/-- C9, counterexample.  For the fractional input −1/2 the code renders
`"00:00:00"`, but truncating "to the whole second below" (the floor, −1)
would render `"23:59:59"`: Python's `int()` truncates toward zero, not
downward. -/
theorem c9_counterexample :
    formatDuration (some (-(1 : ℚ) / 2)) = "00:00:00" ∧
    ratFloor (-(1 : ℚ) / 2) = -1 ∧
    formatSeconds (ratFloor (-(1 : ℚ) / 2)) = "23:59:59" := by
  exact ⟨by with_unfolding_all decide, by with_unfolding_all decide,
    by with_unfolding_all decide⟩

/-- C9, amended: `format_duration` returns the empty string for a missing
(`NaN`) or exactly-zero input (so a zero-length completed outage and an
unresolved duration both render empty rather than `"00:00:00"`); every
other input is truncated *toward zero* (Python `int()`) to a whole number
of seconds and then formatted. -/
theorem c9_empty_zero_and_truncation :
    formatDuration none = "" ∧ formatDuration (some 0) = "" ∧
    ∀ q : ℚ, q ≠ 0 → formatDuration (some q) = formatSeconds (pyInt q) := by
  refine ⟨rfl, by simp [formatDuration], ?_⟩
  intro q hq
  simp only [formatDuration, if_neg hq, formatSeconds, hmsString]
  simp [stringAppendAssoc]

/-- C9, witness: 1.5 seconds is truncated to 1 and formatted. -/
theorem c9_witness :
    formatDuration (some ((3 : ℚ) / 2)) = formatSeconds (pyInt ((3 : ℚ) / 2)) :=
  c9_empty_zero_and_truncation.2.2 ((3 : ℚ) / 2) (by with_unfolding_all decide)

/-- C10: `calculate_downtime` on a missing (`None`) or empty input frame
returns two empty tables (lines 175–176); the embedded computation is a
total function — every operation of the `try` body is total on the typed
input, matching the blanket `except` of lines 277–279 that converts any
failure into the same two empty tables. -/
theorem c10_empty_guards (now now2 : ℚ) :
    calculateDowntime none now now2 = ([], []) ∧
    calculateDowntime (some []) now now2 = ([], []) :=
  ⟨rfl, rfl⟩

end Downtime
